import Mathlib

/-!
# Nigerian personal income tax calculator: engine, deduction registry, service

A shallow embedding of `internal/engine/engine.go`,
`internal/services/deduction_strategies.go`, `internal/services/tax_service.go`
and `internal/models/tax.go`.

Modelling conventions.
* Go `float64` amounts are idealised as exact rationals `ℚ`: every arithmetic
  operation of the source is the corresponding exact operation, so rounding,
  infinities and NaN are outside the model.  The decimal literals of the
  source (`0.07`, `0.01`, `0.20`, `0.08`, `0.025`, ...) are the rationals they
  denote.
* A run-time panic of the source (the slice index in `CalculateProgressiveTax`)
  is the value `none`; a normal return is `some`.
* The package-level map `deductionStrategies` is mutable in the source (the
  service test adds a key), so the service takes the registry as an explicit
  argument; `deductionStrategies` below is its initial value.
-/

namespace TaxCalc

/-! ## Data model (`internal/models/tax.go`, `internal/engine/engine.go`) -/

/-- A single tax bracket: `Threshold` is the width of the income band taxed at `Rate`. -/
structure TaxBracket where
  Threshold : ℚ
  Rate : ℚ
  deriving DecidableEq

/-- The rules for tax calculation: the ordered bracket schedule. -/
structure TaxEngine where
  Brackets : List TaxBracket
  deriving DecidableEq

/-- A single source of income (`models.IncomeSource`); the Go field `Type` is `Type_`. -/
structure IncomeSource where
  Type_ : String
  Amount : ℚ
  deriving DecidableEq

/-- A single deduction or relief (`models.Deduction`); the Go field `Type` is `Type_`. -/
structure Deduction where
  Type_ : String
  Amount : ℚ
  deriving DecidableEq

/-- The request body of the tax calculation (`models.TaxCalculationRequest`). -/
structure TaxCalculationRequest where
  Incomes : List IncomeSource
  Deductions : List Deduction
  deriving DecidableEq

/-- The detailed breakdown of a calculation (`models.TaxBreakdown`). -/
structure TaxBreakdown where
  TotalGrossIncome : ℚ
  TotalDeductions : ℚ
  ConsolidatedRelief : ℚ
  TaxableIncome : ℚ
  AnnualTax : ℚ
  MonthlyTax : ℚ
  deriving DecidableEq

/-- The response body of the tax calculation (`models.TaxCalculationResponse`). -/
structure TaxCalculationResponse where
  Breakdown : TaxBreakdown
  Message : String
  deriving DecidableEq

/-! ## Tax engine (`internal/engine/engine.go`) -/

/-- The engine with the Nigerian tax rules (`NewTaxEngine`). -/
def NewTaxEngine : TaxEngine :=
  { Brackets :=
      [ { Threshold := 300000, Rate := 7 / 100 },
        { Threshold := 300000, Rate := 11 / 100 },
        { Threshold := 500000, Rate := 15 / 100 },
        { Threshold := 500000, Rate := 19 / 100 },
        { Threshold := 1600000, Rate := 21 / 100 },
        { Threshold := 3200000, Rate := 24 / 100 } ] }

/-- The Consolidated Relief Allowance:
`math.Max(200000, 0.01*grossIncome) + (0.20 * grossIncome)`. -/
def CalculateCRA (_e : TaxEngine) (grossIncome : ℚ) : ℚ :=
  max 200000 (1 / 100 * grossIncome) + 20 / 100 * grossIncome

/-- The `for _, bracket := range e.Brackets` loop of `CalculateProgressiveTax`,
started in the state `(totalTax, remainingIncome)`; the result is the state in
which the loop is left (by `break` or at the end of the slice). -/
def bracketLoop : List TaxBracket → ℚ → ℚ → ℚ × ℚ
  | [], totalTax, remainingIncome => (totalTax, remainingIncome)
  | bracket :: rest, totalTax, remainingIncome =>
    if remainingIncome ≤ 0 then
      (totalTax, remainingIncome)
    else
      let taxableAtBracket := min remainingIncome bracket.Threshold
      bracketLoop rest (totalTax + taxableAtBracket * bracket.Rate)
        (remainingIncome - taxableAtBracket)

/-- The tax on `taxableIncome` by the bracket schedule.  After the loop, income
still remaining is taxed at the rate of `e.Brackets[len(e.Brackets)-1]`; that
index is out of range (a panic, `none`) exactly when the slice is empty, which
the truncated `length - 1` of `Nat` reproduces (index `0` of the empty list). -/
def CalculateProgressiveTax (e : TaxEngine) (taxableIncome : ℚ) : Option ℚ :=
  let st := bracketLoop e.Brackets 0 taxableIncome
  if st.2 > 0 then
    match e.Brackets[e.Brackets.length - 1]? with
    | some last => some (st.1 + st.2 * last.Rate)
    | none => none
  else
    some st.1

/-! ## Deduction strategies (`internal/services/deduction_strategies.go`) -/

/-- A deduction strategy: from the deduction record and the gross income to the
allowed amount (`DeductionCalculator`). -/
abbrev DeductionCalculator := Deduction → ℚ → ℚ

/-- The registry of strategies, a map from the deduction type to its strategy,
as a list of key/value pairs read by `List.lookup`. -/
abbrev Registry := List (String × DeductionCalculator)

/-- The initial content of the package-level map `deductionStrategies`. -/
def deductionStrategies : Registry :=
  [ ("Pension", fun d grossIncome => min d.Amount (8 / 100 * grossIncome)),
    ("NHF", fun d grossIncome => min d.Amount (25 / 1000 * grossIncome)),
    ("NHIS", fun d grossIncome => min d.Amount (5 / 100 * grossIncome)) ]

/-! ## Tax service (`internal/services/tax_service.go`) -/

/-- The service: it owns an engine (`TaxService`). -/
structure TaxService where
  Engine : TaxEngine
  deriving DecidableEq

/-- The service over the engine of `NewTaxEngine` (`NewTaxService`). -/
def NewTaxService : TaxService :=
  { Engine := NewTaxEngine }

/-- The first loop of `CalculateTax`: `totalGrossIncome += income.Amount`. -/
def sumIncomes (incomes : List IncomeSource) : ℚ :=
  incomes.foldl (fun totalGrossIncome income => totalGrossIncome + income.Amount) 0

/-- The second loop of `CalculateTax`: a deduction whose type is found in the
registry adds its strategy's result, any other deduction adds nothing. -/
def sumStatutoryDeductions (registry : Registry) (deductions : List Deduction)
    (totalGrossIncome : ℚ) : ℚ :=
  deductions.foldl
    (fun totalStatutoryDeductions deduction =>
      match registry.lookup deduction.Type_ with
      | some calculator => totalStatutoryDeductions + calculator deduction totalGrossIncome
      | none => totalStatutoryDeductions)
    0

/-- The tax calculation of the service (`CalculateTax`), over the registry
`registry`; `none` is the panic of the engine's slice index. -/
def CalculateTax (s : TaxService) (registry : Registry) (req : TaxCalculationRequest) :
    Option TaxCalculationResponse :=
  let totalGrossIncome := sumIncomes req.Incomes
  let totalStatutoryDeductions :=
    sumStatutoryDeductions registry req.Deductions totalGrossIncome
  let consolidatedRelief := CalculateCRA s.Engine totalGrossIncome
  let totalDeductions := totalStatutoryDeductions + consolidatedRelief
  let taxableIncome :=
    if totalGrossIncome - totalDeductions < 0 then 0 else totalGrossIncome - totalDeductions
  match CalculateProgressiveTax s.Engine taxableIncome with
  | none => none
  | some annualTax =>
    some
      { Breakdown :=
          { TotalGrossIncome := totalGrossIncome,
            TotalDeductions := totalDeductions,
            ConsolidatedRelief := consolidatedRelief,
            TaxableIncome := taxableIncome,
            AnnualTax := annualTax,
            MonthlyTax := annualTax / 12 },
        Message := "Tax calculated successfully." }

/-! ## Reference descriptions used by the statements -/

/-- The sum of the widths of a schedule. -/
def totalWidth (brackets : List TaxBracket) : ℚ :=
  (brackets.map (fun b => b.Threshold)).sum

/-- The tax of a schedule band by band: the band of a bracket starts where the
widths before it end, and the part of `x` inside the band is taxed at the
bracket's rate (`x` is measured from the start of the first band). -/
def bandSum : List TaxBracket → ℚ → ℚ
  | [], _ => 0
  | b :: rest, x => b.Rate * min (max x 0) b.Threshold + bandSum rest (x - b.Threshold)

/-- The piecewise-linear reference for the default schedule: breakpoints at the
cumulative width sums 300000, 600000, 1100000, 1600000, 3200000, 6400000, each
bracket taxing `min (max (t - c) 0) width` at its rate, and the excess over
6400000 taxed at 0.24. -/
def piecewiseReference (t : ℚ) : ℚ :=
  7 / 100 * min (max (t - 0) 0) 300000
    + 11 / 100 * min (max (t - 300000) 0) 300000
    + 15 / 100 * min (max (t - 600000) 0) 500000
    + 19 / 100 * min (max (t - 1100000) 0) 500000
    + 21 / 100 * min (max (t - 1600000) 0) 1600000
    + 24 / 100 * min (max (t - 3200000) 0) 3200000
    + 24 / 100 * max (t - 6400000) 0

/-- The same function written with one hinge `max (t - c) 0` per breakpoint `c`,
each weighted by the increase of the rate at that breakpoint. -/
def hingeReference (t : ℚ) : ℚ :=
  7 / 100 * max t 0
    + 4 / 100 * max (t - 300000) 0
    + 4 / 100 * max (t - 600000) 0
    + 4 / 100 * max (t - 1100000) 0
    + 2 / 100 * max (t - 1600000) 0
    + 3 / 100 * max (t - 3200000) 0

/-! ## Registration of a strategy (`internal/services/tax_service_test.go`) -/

/-- The map assignment `deductionStrategies[ty] = calculator`: afterwards a
lookup of `ty` finds `calculator` (the new pair is met first) and every other
key is as before. -/
def registerStrategy (registry : Registry) (ty : String) (calculator : DeductionCalculator) :
    Registry :=
  (ty, calculator) :: registry

/-- The registry after the assignment of the service test:
`deductionStrategies["LifeInsurance"]` returns `d.Amount`, without a cap. -/
def lifeInsuranceRegistry : Registry :=
  registerStrategy deductionStrategies "LifeInsurance" (fun d _grossIncome => d.Amount)

/-! ## The bracket loop in closed form -/

theorem bandSum_of_nonpos (bs : List TaxBracket) (hw : ∀ b ∈ bs, 0 ≤ b.Threshold) :
    ∀ x : ℚ, x ≤ 0 → bandSum bs x = 0 := by
  induction bs with
  | nil => intro x _; rfl
  | cons b rest ih =>
    intro x hx
    have hb : 0 ≤ b.Threshold := hw b (List.mem_cons_self _ _)
    have hrest : ∀ c ∈ rest, 0 ≤ c.Threshold := fun c hc => hw c (List.mem_cons_of_mem _ hc)
    have h1 : max x 0 = 0 := max_eq_right hx
    have h2 : min (0 : ℚ) b.Threshold = 0 := min_eq_left hb
    simp only [bandSum, h1, h2, mul_zero, zero_add]
    exact ih hrest _ (by linarith)

theorem bracketLoop_fst (bs : List TaxBracket) (hw : ∀ b ∈ bs, 0 ≤ b.Threshold) :
    ∀ total x : ℚ, (bracketLoop bs total x).1 = total + bandSum bs x := by
  induction bs with
  | nil => intro total x; simp [bracketLoop, bandSum]
  | cons b rest ih =>
    intro total x
    have hb : 0 ≤ b.Threshold := hw b (List.mem_cons_self _ _)
    have hrest : ∀ c ∈ rest, 0 ≤ c.Threshold := fun c hc => hw c (List.mem_cons_of_mem _ hc)
    by_cases hx : x ≤ 0
    · have h0 := bandSum_of_nonpos (b :: rest) hw x hx
      simp [bracketLoop, hx, h0]
    · have hx0 : 0 < x := lt_of_not_ge hx
      have hmax : max x 0 = x := max_eq_left hx0.le
      simp only [bracketLoop, hx, if_false, ih hrest, bandSum, hmax]
      rcases le_total x b.Threshold with hle | hle
      · have hmin : min x b.Threshold = x := min_eq_left hle
        rw [hmin, sub_self, bandSum_of_nonpos rest hrest 0 le_rfl,
          bandSum_of_nonpos rest hrest (x - b.Threshold) (by linarith)]
        ring
      · have hmin : min x b.Threshold = b.Threshold := min_eq_right hle
        rw [hmin]
        ring

theorem bracketLoop_snd (bs : List TaxBracket) (hw : ∀ b ∈ bs, 0 ≤ b.Threshold) :
    ∀ total x : ℚ,
      (bracketLoop bs total x).2 = if x ≤ 0 then x else max (x - totalWidth bs) 0 := by
  induction bs with
  | nil =>
    intro total x
    by_cases hx : x ≤ 0
    · simp [bracketLoop, hx]
    · have hx0 : 0 < x := lt_of_not_ge hx
      simp [bracketLoop, totalWidth, hx, hx0.le]
  | cons b rest ih =>
    intro total x
    have hb : 0 ≤ b.Threshold := hw b (List.mem_cons_self _ _)
    have hrest : ∀ c ∈ rest, 0 ≤ c.Threshold := fun c hc => hw c (List.mem_cons_of_mem _ hc)
    have hW : totalWidth (b :: rest) = b.Threshold + totalWidth rest := by
      simp [totalWidth]
    have hWrest : 0 ≤ totalWidth rest := by
      unfold totalWidth
      apply List.sum_nonneg
      intro y hy
      obtain ⟨c, hc, rfl⟩ := List.mem_map.mp hy
      exact hrest c hc
    by_cases hx : x ≤ 0
    · simp [bracketLoop, hx]
    · have hx0 : 0 < x := lt_of_not_ge hx
      simp only [bracketLoop, hx, if_false, ih hrest, hW]
      rcases le_total x b.Threshold with hle | hle
      · have hmin : min x b.Threshold = x := min_eq_left hle
        rw [hmin, sub_self, if_pos le_rfl]
        exact (max_eq_right (by linarith)).symm
      · have hmin : min x b.Threshold = b.Threshold := min_eq_right hle
        rw [hmin]
        by_cases hxb : x - b.Threshold ≤ 0
        · rw [if_pos hxb]
          have : x - b.Threshold = 0 := le_antisymm hxb (by linarith)
          rw [this]
          exact (max_eq_right (by linarith)).symm
        · rw [if_neg hxb]
          congr 1
          ring

theorem totalWidth_nonneg (bs : List TaxBracket) (hw : ∀ b ∈ bs, 0 ≤ b.Threshold) :
    0 ≤ totalWidth bs := by
  unfold totalWidth
  apply List.sum_nonneg
  intro y hy
  obtain ⟨c, hc, rfl⟩ := List.mem_map.mp hy
  exact hw c hc

/-- The progressive tax of an engine whose schedule has a last bracket and no
negative width: the bands of the schedule, and the excess over the total width
at the last rate. -/
theorem CalculateProgressiveTax_closed (e : TaxEngine)
    (hw : ∀ b ∈ e.Brackets, 0 ≤ b.Threshold) (last : TaxBracket)
    (hlast : e.Brackets[e.Brackets.length - 1]? = some last) (t : ℚ) :
    CalculateProgressiveTax e t
      = some (bandSum e.Brackets t + max (t - totalWidth e.Brackets) 0 * last.Rate) := by
  have hW := totalWidth_nonneg e.Brackets hw
  unfold CalculateProgressiveTax
  simp only [bracketLoop_fst e.Brackets hw, bracketLoop_snd e.Brackets hw, hlast, zero_add]
  by_cases ht : t ≤ 0
  · have h0 : max (t - totalWidth e.Brackets) 0 = 0 := max_eq_right (by linarith)
    have hn : ¬ t > 0 := not_lt.mpr ht
    simp [ht, hn, h0]
  · simp only [ht, if_false]
    by_cases hpos : max (t - totalWidth e.Brackets) 0 > 0
    · simp [hpos]
    · have h0 : max (t - totalWidth e.Brackets) 0 = 0 :=
        le_antisymm (not_lt.mp hpos) (le_max_right _ _)
      simp [h0]

/-! ## The default schedule -/

theorem newEngine_widths : ∀ b ∈ NewTaxEngine.Brackets, 0 ≤ b.Threshold := by
  intro b hb
  simp only [NewTaxEngine, List.mem_cons, List.mem_singleton, List.not_mem_nil, or_false] at hb
  rcases hb with rfl | rfl | rfl | rfl | rfl | rfl <;> norm_num

theorem newEngine_tax (t : ℚ) :
    CalculateProgressiveTax NewTaxEngine t = some (piecewiseReference t) := by
  rw [CalculateProgressiveTax_closed NewTaxEngine newEngine_widths
    { Threshold := 3200000, Rate := 24 / 100 } (by simp [NewTaxEngine])]
  congr 1
  simp only [NewTaxEngine, bandSum, totalWidth, piecewiseReference, List.map, List.sum_cons,
    List.sum_nil, sub_sub]
  norm_num
  ring

theorem clip_eq_hinges (x w : ℚ) (hw : 0 ≤ w) :
    min (max x 0) w = max x 0 - max (x - w) 0 := by
  rcases le_total x 0 with h0 | h0
  · rw [max_eq_right h0, max_eq_right (by linarith), min_eq_left hw]
    ring
  · rw [max_eq_left h0]
    rcases le_total x w with h1 | h1
    · rw [min_eq_left h1, max_eq_right (by linarith)]
      ring
    · rw [min_eq_right h1, max_eq_left (by linarith)]
      ring

theorem piecewiseReference_eq_hinge (t : ℚ) : piecewiseReference t = hingeReference t := by
  unfold piecewiseReference hingeReference
  rw [clip_eq_hinges (t - 0) 300000 (by norm_num), clip_eq_hinges (t - 300000) 300000 (by norm_num),
    clip_eq_hinges (t - 600000) 500000 (by norm_num),
    clip_eq_hinges (t - 1100000) 500000 (by norm_num),
    clip_eq_hinges (t - 1600000) 1600000 (by norm_num),
    clip_eq_hinges (t - 3200000) 3200000 (by norm_num)]
  norm_num [sub_sub]
  ring

theorem hinge_mono (c a b : ℚ) (hab : a ≤ b) : max (a - c) 0 ≤ max (b - c) 0 :=
  max_le_max (by linarith) le_rfl

theorem hingeReference_mono (a b : ℚ) (hab : a ≤ b) : hingeReference a ≤ hingeReference b := by
  unfold hingeReference
  have h0 := hinge_mono 0 a b hab
  have h1 := hinge_mono 300000 a b hab
  have h2 := hinge_mono 600000 a b hab
  have h3 := hinge_mono 1100000 a b hab
  have h4 := hinge_mono 1600000 a b hab
  have h5 := hinge_mono 3200000 a b hab
  simp only [sub_zero] at h0
  linarith

theorem hingeReference_of_nonpos (t : ℚ) (ht : t ≤ 0) : hingeReference t = 0 := by
  unfold hingeReference
  rw [max_eq_right ht, max_eq_right (by linarith), max_eq_right (by linarith),
    max_eq_right (by linarith), max_eq_right (by linarith), max_eq_right (by linarith)]
  ring

theorem newEngine_tax_hinge (t : ℚ) :
    CalculateProgressiveTax NewTaxEngine t = some (hingeReference t) := by
  rw [newEngine_tax, piecewiseReference_eq_hinge]

/-! ## Income beyond the total width -/

/-- The tax of all bands in full. -/
theorem bandSum_of_full (bs : List TaxBracket) (hw : ∀ b ∈ bs, 0 ≤ b.Threshold) :
    ∀ x : ℚ, totalWidth bs ≤ x →
      bandSum bs x = (bs.map (fun b => b.Rate * b.Threshold)).sum := by
  induction bs with
  | nil => intro x _; rfl
  | cons b rest ih =>
    intro x hx
    have hb : 0 ≤ b.Threshold := hw b (List.mem_cons_self _ _)
    have hrest : ∀ c ∈ rest, 0 ≤ c.Threshold := fun c hc => hw c (List.mem_cons_of_mem _ hc)
    have hW : totalWidth (b :: rest) = b.Threshold + totalWidth rest := by
      simp [totalWidth]
    have hWrest := totalWidth_nonneg rest hrest
    rw [hW] at hx
    have h1 : max x 0 = x := max_eq_left (by linarith)
    have h2 : min x b.Threshold = b.Threshold := min_eq_right (by linarith)
    simp only [bandSum, h1, h2, List.map_cons, List.sum_cons]
    rw [ih hrest (x - b.Threshold) (by linarith)]

/-! ## The loops of the service as sums -/

theorem foldl_incomes (incomes : List IncomeSource) :
    ∀ acc : ℚ,
      incomes.foldl (fun totalGrossIncome income => totalGrossIncome + income.Amount) acc
        = acc + (incomes.map (fun i => i.Amount)).sum := by
  induction incomes with
  | nil => intro acc; simp
  | cons i rest ih =>
    intro acc
    simp only [List.foldl_cons, List.map_cons, List.sum_cons, ih]
    ring

theorem sumIncomes_eq_sum (incomes : List IncomeSource) :
    sumIncomes incomes = (incomes.map (fun i => i.Amount)).sum := by
  unfold sumIncomes
  rw [foldl_incomes, zero_add]

theorem foldl_deductions (registry : Registry) (G : ℚ) (deductions : List Deduction) :
    ∀ acc : ℚ,
      deductions.foldl
          (fun totalStatutoryDeductions deduction =>
            match registry.lookup deduction.Type_ with
            | some calculator => totalStatutoryDeductions + calculator deduction G
            | none => totalStatutoryDeductions)
          acc
        = acc + (deductions.filterMap
            (fun d => (registry.lookup d.Type_).map (fun calculator => calculator d G))).sum := by
  induction deductions with
  | nil => intro acc; simp
  | cons d rest ih =>
    intro acc
    rw [List.foldl_cons, ih]
    cases h : registry.lookup d.Type_ with
    | none => simp [List.filterMap_cons, h]
    | some calculator =>
      simp only [List.filterMap_cons, h, Option.map_some', List.sum_cons]
      ring

theorem sumStatutoryDeductions_eq_sum (registry : Registry) (deductions : List Deduction)
    (G : ℚ) :
    sumStatutoryDeductions registry deductions G
      = (deductions.filterMap
          (fun d => (registry.lookup d.Type_).map (fun calculator => calculator d G))).sum := by
  unfold sumStatutoryDeductions
  rw [foldl_deductions, zero_add]

/-- The service over the default engine always returns a response, whose
annual tax is the reference on the taxable income. -/
theorem CalculateTax_newService (registry : Registry) (req : TaxCalculationRequest) :
    CalculateTax NewTaxService registry req
      = some
          { Breakdown :=
              { TotalGrossIncome := sumIncomes req.Incomes,
                TotalDeductions :=
                  sumStatutoryDeductions registry req.Deductions (sumIncomes req.Incomes)
                    + CalculateCRA NewTaxEngine (sumIncomes req.Incomes),
                ConsolidatedRelief := CalculateCRA NewTaxEngine (sumIncomes req.Incomes),
                TaxableIncome :=
                  max 0 (sumIncomes req.Incomes
                    - (sumStatutoryDeductions registry req.Deductions (sumIncomes req.Incomes)
                        + CalculateCRA NewTaxEngine (sumIncomes req.Incomes))),
                AnnualTax :=
                  piecewiseReference
                    (max 0 (sumIncomes req.Incomes
                      - (sumStatutoryDeductions registry req.Deductions (sumIncomes req.Incomes)
                          + CalculateCRA NewTaxEngine (sumIncomes req.Incomes)))),
                MonthlyTax :=
                  piecewiseReference
                    (max 0 (sumIncomes req.Incomes
                      - (sumStatutoryDeductions registry req.Deductions (sumIncomes req.Incomes)
                          + CalculateCRA NewTaxEngine (sumIncomes req.Incomes)))) / 12 },
            Message := "Tax calculated successfully." } := by
  have hfloor : ∀ x : ℚ, (if x < 0 then 0 else x) = max 0 x := by
    intro x
    by_cases hx : x < 0
    · rw [if_pos hx, max_eq_left hx.le]
    · rw [if_neg hx, max_eq_right (not_lt.mp hx)]
  simp only [CalculateTax, NewTaxService, hfloor, newEngine_tax]

/-! ## The claims -/

/-- C2: for every gross income `x ≥ 0`,
`CalculateCRA x = max 200000 (0.01 x) + 0.20 x`; it is 400000 at 1000000,
1200000 at 5000000 and 6300000 at 30000000. -/
theorem CalculateCRA_formula (e : TaxEngine) (x : ℚ) (_hx : 0 ≤ x) :
    CalculateCRA e x = max 200000 (1 / 100 * x) + 20 / 100 * x
      ∧ CalculateCRA e 1000000 = 400000
      ∧ CalculateCRA e 5000000 = 1200000
      ∧ CalculateCRA e 30000000 = 6300000 := by
  refine ⟨rfl, ?_, ?_, ?_⟩ <;> norm_num [CalculateCRA]

theorem CalculateCRA_formula_witness :
    (0 : ℚ) ≤ 2000000
      ∧ (CalculateCRA NewTaxEngine 2000000 = max 200000 (1 / 100 * 2000000) + 20 / 100 * 2000000
        ∧ CalculateCRA NewTaxEngine 1000000 = 400000
        ∧ CalculateCRA NewTaxEngine 5000000 = 1200000
        ∧ CalculateCRA NewTaxEngine 30000000 = 6300000) :=
  ⟨by norm_num, CalculateCRA_formula NewTaxEngine 2000000 (by norm_num)⟩

/-- C3: for every request, `CalculateTax` (default engine, any registry)
returns a breakdown with: the gross income the sum of the income amounts; the
relief `CalculateCRA` of it; the total deductions the sum of the strategies'
results over the deductions whose type is registered, plus the relief; the
taxable income `max 0 (gross - total deductions)`; the annual tax
`CalculateProgressiveTax` of the taxable income; the monthly tax a twelfth of
it; and the fixed message.  One income of 2000000 without deductions gives
relief 600000, taxable income 1400000, annual tax 186000, monthly tax 15500. -/
theorem CalculateTax_breakdown (registry : Registry) (req : TaxCalculationRequest) :
    (∃ resp : TaxCalculationResponse,
      CalculateTax NewTaxService registry req = some resp
        ∧ resp.Breakdown.TotalGrossIncome = (req.Incomes.map (fun i => i.Amount)).sum
        ∧ resp.Breakdown.ConsolidatedRelief
            = CalculateCRA NewTaxEngine resp.Breakdown.TotalGrossIncome
        ∧ resp.Breakdown.TotalDeductions
            = (req.Deductions.filterMap
                (fun d => (registry.lookup d.Type_).map
                  (fun calculator => calculator d resp.Breakdown.TotalGrossIncome))).sum
              + resp.Breakdown.ConsolidatedRelief
        ∧ resp.Breakdown.TaxableIncome
            = max 0 (resp.Breakdown.TotalGrossIncome - resp.Breakdown.TotalDeductions)
        ∧ CalculateProgressiveTax NewTaxEngine resp.Breakdown.TaxableIncome
            = some resp.Breakdown.AnnualTax
        ∧ resp.Breakdown.MonthlyTax = resp.Breakdown.AnnualTax / 12
        ∧ resp.Message = "Tax calculated successfully.")
      ∧ CalculateTax NewTaxService deductionStrategies
          { Incomes := [{ Type_ := "Employment", Amount := 2000000 }], Deductions := [] }
        = some
            { Breakdown :=
                { TotalGrossIncome := 2000000,
                  TotalDeductions := 600000,
                  ConsolidatedRelief := 600000,
                  TaxableIncome := 1400000,
                  AnnualTax := 186000,
                  MonthlyTax := 15500 },
              Message := "Tax calculated successfully." } := by
  constructor
  · refine ⟨_, CalculateTax_newService registry req, ?_, rfl, ?_, rfl, ?_, rfl, rfl⟩
    · exact sumIncomes_eq_sum req.Incomes
    · simp only [sumStatutoryDeductions_eq_sum]
    · exact newEngine_tax _
  · rw [CalculateTax_newService]
    norm_num [sumIncomes, sumStatutoryDeductions, CalculateCRA, piecewiseReference]

/-- C4: for every deduction record (claimed amount `d.Amount`) and gross income
`G`, the registered strategies return: Pension `min a (0.08 G)`, NHF
`min a (0.025 G)`, NHIS `min a (0.05 G)`; these three are the registered types,
and the result of every registered strategy is at most the claimed amount.  A
Pension claim of 400000 against gross 5000000 is allowed in full. -/
theorem deductionStrategies_caps (d : Deduction) (G : ℚ) :
    (deductionStrategies.lookup "Pension").map (fun calculator => calculator d G)
        = some (min d.Amount (8 / 100 * G))
      ∧ (deductionStrategies.lookup "NHF").map (fun calculator => calculator d G)
        = some (min d.Amount (25 / 1000 * G))
      ∧ (deductionStrategies.lookup "NHIS").map (fun calculator => calculator d G)
        = some (min d.Amount (5 / 100 * G))
      ∧ (∀ ty : String, (deductionStrategies.lookup ty).isSome = true
          ↔ ty = "Pension" ∨ ty = "NHF" ∨ ty = "NHIS")
      ∧ (∀ (ty : String) (calculator : DeductionCalculator),
          deductionStrategies.lookup ty = some calculator → calculator d G ≤ d.Amount)
      ∧ (deductionStrategies.lookup "Pension").map
          (fun calculator => calculator { Type_ := "Pension", Amount := 400000 } 5000000)
        = some 400000 := by
  have hcases : ∀ (ty : String) (calculator : DeductionCalculator),
      deductionStrategies.lookup ty = some calculator →
        (ty = "Pension" ∧ calculator = fun d grossIncome => min d.Amount (8 / 100 * grossIncome))
        ∨ (ty = "NHF" ∧ calculator = fun d grossIncome => min d.Amount (25 / 1000 * grossIncome))
        ∨ (ty = "NHIS"
            ∧ calculator = fun d grossIncome => min d.Amount (5 / 100 * grossIncome)) := by
    intro ty calculator h
    unfold deductionStrategies at h
    simp only [List.lookup] at h
    by_cases h1 : ty = "Pension"
    · subst h1
      left
      simp at h
      exact ⟨rfl, h.symm⟩
    · have e1 : (ty == "Pension") = false := by simpa using h1
      rw [e1] at h
      by_cases h2 : ty = "NHF"
      · subst h2
        right; left
        simp at h
        exact ⟨rfl, h.symm⟩
      · have e2 : (ty == "NHF") = false := by simpa using h2
        rw [e2] at h
        by_cases h3 : ty = "NHIS"
        · subst h3
          right; right
          simp at h
          exact ⟨rfl, h.symm⟩
        · have e3 : (ty == "NHIS") = false := by simpa using h3
          rw [e3] at h
          simp at h
  refine ⟨?_, ?_, ?_, ?_, ?_, ?_⟩
  · simp [deductionStrategies, List.lookup]
  · simp [deductionStrategies, List.lookup]
  · simp [deductionStrategies, List.lookup]
  · intro ty
    constructor
    · intro h
      obtain ⟨calculator, hc⟩ := Option.isSome_iff_exists.mp h
      rcases hcases ty calculator hc with ⟨h1, _⟩ | ⟨h1, _⟩ | ⟨h1, _⟩
      · exact Or.inl h1
      · exact Or.inr (Or.inl h1)
      · exact Or.inr (Or.inr h1)
    · rintro (rfl | rfl | rfl) <;> simp [deductionStrategies, List.lookup]
  · intro ty calculator h
    rcases hcases ty calculator h with ⟨_, rfl⟩ | ⟨_, rfl⟩ | ⟨_, rfl⟩ <;> exact min_le_left _ _
  · norm_num [deductionStrategies, List.lookup]

theorem deductionStrategies_caps_witness :
    deductionStrategies.lookup "NHF"
        = some (fun d grossIncome => min d.Amount (25 / 1000 * grossIncome))
      ∧ min (90000 : ℚ) (25 / 1000 * 2000000) ≤ 90000 :=
  ⟨by simp [deductionStrategies, List.lookup],
    (deductionStrategies_caps { Type_ := "NHF", Amount := 90000 } 2000000).2.2.2.2.1 "NHF"
      (fun d grossIncome => min d.Amount (25 / 1000 * grossIncome))
      (by simp [deductionStrategies, List.lookup])⟩

/-- C5: a deduction whose type has no registered strategy contributes exactly 0
and raises no error: with such a deduction `d` inserted at any position of the
deductions list (whatever its amount), `CalculateTax` returns the same as
without it, and the statutory sum is unchanged; over the default engine both
calls return a response. -/
theorem CalculateTax_ignores_unregistered (s : TaxService) (registry : Registry)
    (incomes : List IncomeSource) (before after : List Deduction) (d : Deduction)
    (hd : registry.lookup d.Type_ = none) :
    CalculateTax s registry { Incomes := incomes, Deductions := before ++ d :: after }
        = CalculateTax s registry { Incomes := incomes, Deductions := before ++ after }
      ∧ (∀ G : ℚ, sumStatutoryDeductions registry (before ++ d :: after) G
          = sumStatutoryDeductions registry (before ++ after) G)
      ∧ (CalculateTax NewTaxService registry
          { Incomes := incomes, Deductions := before ++ d :: after }).isSome = true := by
  have hsum : ∀ G : ℚ, sumStatutoryDeductions registry (before ++ d :: after) G
      = sumStatutoryDeductions registry (before ++ after) G := by
    intro G
    unfold sumStatutoryDeductions
    simp only [List.foldl_append, List.foldl_cons, hd]
  refine ⟨?_, hsum, ?_⟩
  · simp only [CalculateTax, hsum]
  · rw [CalculateTax_newService]
    rfl

theorem CalculateTax_ignores_unregistered_witness :
    deductionStrategies.lookup "LifeInsurance" = none
      ∧ CalculateTax NewTaxService deductionStrategies
          { Incomes := [{ Type_ := "Employment", Amount := 5000000 }],
            Deductions := [{ Type_ := "Pension", Amount := 400000 },
              { Type_ := "LifeInsurance", Amount := 100000 },
              { Type_ := "NHF", Amount := 10000 }] }
        = CalculateTax NewTaxService deductionStrategies
          { Incomes := [{ Type_ := "Employment", Amount := 5000000 }],
            Deductions := [{ Type_ := "Pension", Amount := 400000 },
              { Type_ := "NHF", Amount := 10000 }] } :=
  ⟨by simp [deductionStrategies, List.lookup],
    (CalculateTax_ignores_unregistered NewTaxService deductionStrategies
      [{ Type_ := "Employment", Amount := 5000000 }]
      [{ Type_ := "Pension", Amount := 400000 }] [{ Type_ := "NHF", Amount := 10000 }]
      { Type_ := "LifeInsurance", Amount := 100000 }
      (by simp [deductionStrategies, List.lookup])).1⟩

/-- C7: for the engine of `NewTaxEngine`, `CalculateProgressiveTax` is
monotonically non-decreasing: for all `0 ≤ a ≤ b` both calls return, and the
tax on `a` is at most the tax on `b`. -/
theorem CalculateProgressiveTax_monotone (a b : ℚ) (_ha : 0 ≤ a) (hab : a ≤ b) :
    ∃ x y : ℚ,
      CalculateProgressiveTax NewTaxEngine a = some x
        ∧ CalculateProgressiveTax NewTaxEngine b = some y
        ∧ x ≤ y := by
  exact ⟨_, _, newEngine_tax_hinge a, newEngine_tax_hinge b, hingeReference_mono a b hab⟩

theorem CalculateProgressiveTax_monotone_witness :
    (0 : ℚ) ≤ 300000 ∧ (300000 : ℚ) ≤ 300001
      ∧ ∃ x y : ℚ,
          CalculateProgressiveTax NewTaxEngine 300000 = some x
            ∧ CalculateProgressiveTax NewTaxEngine 300001 = some y
            ∧ x ≤ y :=
  ⟨by norm_num, by norm_num,
    CalculateProgressiveTax_monotone 300000 300001 (by norm_num) (by norm_num)⟩

/-- C9: income beyond the sum of all bracket widths is taxed entirely at the
last bracket's rate: for every engine whose schedule is non-empty (it has a
last bracket, of rate `r`) with positive widths of total `W`, and every taxable
income `t > W`, `CalculateProgressiveTax t = CalculateProgressiveTax W + r * (t - W)`.
For the schedule of `NewTaxEngine`, `W = 6400000`, `r = 0.24` and the tax at
`W` is 1328000. -/
theorem CalculateProgressiveTax_excess (e : TaxEngine) (last : TaxBracket)
    (hlast : e.Brackets.getLast? = some last) (hpos : ∀ b ∈ e.Brackets, 0 < b.Threshold)
    (t : ℚ) (ht : totalWidth e.Brackets < t) :
    (∃ v : ℚ,
      CalculateProgressiveTax e (totalWidth e.Brackets) = some v
        ∧ CalculateProgressiveTax e t = some (v + last.Rate * (t - totalWidth e.Brackets)))
      ∧ totalWidth NewTaxEngine.Brackets = 6400000
      ∧ NewTaxEngine.Brackets.getLast?.map (fun b => b.Rate) = some (24 / 100)
      ∧ CalculateProgressiveTax NewTaxEngine 6400000 = some 1328000 := by
  have hw : ∀ b ∈ e.Brackets, 0 ≤ b.Threshold := fun b hb => (hpos b hb).le
  have hidx : e.Brackets[e.Brackets.length - 1]? = some last := by
    rw [← List.getLast?_eq_getElem?]
    exact hlast
  refine ⟨⟨bandSum e.Brackets (totalWidth e.Brackets), ?_, ?_⟩, ?_, ?_, ?_⟩
  · rw [CalculateProgressiveTax_closed e hw last hidx, sub_self, max_self, zero_mul, add_zero]
  · rw [CalculateProgressiveTax_closed e hw last hidx, max_eq_left (by linarith),
      bandSum_of_full e.Brackets hw t ht.le,
      bandSum_of_full e.Brackets hw (totalWidth e.Brackets) le_rfl]
    congr 1
    ring
  · norm_num [totalWidth, NewTaxEngine]
  · simp [NewTaxEngine]
  · rw [newEngine_tax]
    norm_num [piecewiseReference]

theorem CalculateProgressiveTax_excess_witness :
    NewTaxEngine.Brackets.getLast? = some { Threshold := 3200000, Rate := 24 / 100 }
      ∧ (∀ b ∈ NewTaxEngine.Brackets, 0 < b.Threshold)
      ∧ totalWidth NewTaxEngine.Brackets < 7000000
      ∧ ∃ v : ℚ,
          CalculateProgressiveTax NewTaxEngine (totalWidth NewTaxEngine.Brackets) = some v
            ∧ CalculateProgressiveTax NewTaxEngine 7000000
              = some (v + 24 / 100 * (7000000 - totalWidth NewTaxEngine.Brackets)) :=
  ⟨by simp [NewTaxEngine], by simp [NewTaxEngine],
    by norm_num [totalWidth, NewTaxEngine],
    (CalculateProgressiveTax_excess NewTaxEngine { Threshold := 3200000, Rate := 24 / 100 }
      (by simp [NewTaxEngine]) (by simp [NewTaxEngine]) 7000000
      (by norm_num [totalWidth, NewTaxEngine])).1⟩

theorem lookup_registerStrategy_ne (registry : Registry) (ty key : String)
    (calculator : DeductionCalculator) (h : key ≠ ty) :
    (registerStrategy registry ty calculator).lookup key = registry.lookup key := by
  have e : (key == ty) = false := by simpa using h
  simp only [registerStrategy, List.lookup, e]

theorem lastIndex_isSome (bs : List TaxBracket) (hne : bs ≠ []) :
    (bs[bs.length - 1]?).isSome = true := by
  have hlt : bs.length - 1 < bs.length := Nat.sub_lt (List.length_pos.mpr hne) Nat.one_pos
  rw [List.getElem?_eq_getElem hlt]
  rfl

/-- C11: with the registry extended by a "LifeInsurance" strategy returning the
claimed amount uncapped, `CalculateTax` on one income of 5000000 and the
deductions Pension 400000, LifeInsurance 100000 yields statutory deductions
500000, relief 1200000, total deductions 1700000, taxable income 3300000,
annual tax 584000 and monthly tax a twelfth of it; the registration is a new
key of the mapping, found by lookup, and the lookup of every other key (hence
the calling code's result on other types) is unchanged. -/
theorem CalculateTax_lifeInsurance :
    sumStatutoryDeductions lifeInsuranceRegistry
        [{ Type_ := "Pension", Amount := 400000 }, { Type_ := "LifeInsurance", Amount := 100000 }]
        5000000 = 500000
      ∧ CalculateTax NewTaxService lifeInsuranceRegistry
          { Incomes := [{ Type_ := "Employment", Amount := 5000000 }],
            Deductions := [{ Type_ := "Pension", Amount := 400000 },
              { Type_ := "LifeInsurance", Amount := 100000 }] }
        = some
            { Breakdown :=
                { TotalGrossIncome := 5000000,
                  TotalDeductions := 1700000,
                  ConsolidatedRelief := 1200000,
                  TaxableIncome := 3300000,
                  AnnualTax := 584000,
                  MonthlyTax := 584000 / 12 },
              Message := "Tax calculated successfully." }
      ∧ (lifeInsuranceRegistry.lookup "LifeInsurance").map
          (fun calculator => calculator { Type_ := "LifeInsurance", Amount := 100000 } 5000000)
        = some 100000
      ∧ deductionStrategies.lookup "LifeInsurance" = none
      ∧ ∀ key : String, key ≠ "LifeInsurance" →
          lifeInsuranceRegistry.lookup key = deductionStrategies.lookup key := by
  have hP : lifeInsuranceRegistry.lookup "Pension"
      = some (fun d grossIncome => min d.Amount (8 / 100 * grossIncome)) := by
    simp [lifeInsuranceRegistry, registerStrategy, deductionStrategies, List.lookup]
  have hL : lifeInsuranceRegistry.lookup "LifeInsurance"
      = some (fun d _grossIncome => d.Amount) := by
    simp [lifeInsuranceRegistry, registerStrategy, List.lookup]
  have hS : ∀ G : ℚ, sumStatutoryDeductions lifeInsuranceRegistry
      [{ Type_ := "Pension", Amount := 400000 }, { Type_ := "LifeInsurance", Amount := 100000 }]
      G = min 400000 (8 / 100 * G) + 100000 := by
    intro G
    simp only [sumStatutoryDeductions, List.foldl, hP, hL, zero_add]
  refine ⟨?_, ?_, ?_, ?_, ?_⟩
  · rw [hS]
    norm_num
  · rw [CalculateTax_newService]
    simp only [hS]
    norm_num [sumIncomes, CalculateCRA, piecewiseReference]
  · rw [hL]
    rfl
  · simp [deductionStrategies, List.lookup]
  · intro key hkey
    exact lookup_registerStrategy_ne deductionStrategies "LifeInsurance" key _ hkey

theorem CalculateTax_lifeInsurance_witness :
    "Pension" ≠ "LifeInsurance"
      ∧ lifeInsuranceRegistry.lookup "Pension" = deductionStrategies.lookup "Pension" :=
  ⟨by decide, CalculateTax_lifeInsurance.2.2.2.2 "Pension" (by decide)⟩

/-- C13 as stated fails: the widths of the schedule of `NewTaxEngine` are not
strictly ascending (the first two brackets are both 300000 wide). -/
theorem newEngine_widths_not_strictly_ascending :
    ¬ List.Chain' (fun a b : TaxBracket => a.Threshold < b.Threshold) NewTaxEngine.Brackets := by
  simp [NewTaxEngine]

/-- C13 amended: along the six brackets of `NewTaxEngine` every width is at
least the preceding width and every rate is greater than the preceding rate, so
the last bracket carries the highest rate. -/
theorem newEngine_schedule_order :
    NewTaxEngine.Brackets.length = 6
      ∧ List.Chain' (fun a b : TaxBracket => a.Threshold ≤ b.Threshold) NewTaxEngine.Brackets
      ∧ List.Chain' (fun a b : TaxBracket => a.Rate < b.Rate) NewTaxEngine.Brackets
      ∧ ∃ last : TaxBracket, NewTaxEngine.Brackets.getLast? = some last
          ∧ ∀ b ∈ NewTaxEngine.Brackets, b.Rate ≤ last.Rate := by
  refine ⟨rfl, ?_, ?_, ⟨{ Threshold := 3200000, Rate := 24 / 100 }, ?_, ?_⟩⟩
  · norm_num [NewTaxEngine]
  · norm_num [NewTaxEngine]
  · simp [NewTaxEngine]
  · intro b hb
    simp only [NewTaxEngine, List.mem_cons, List.mem_singleton, List.not_mem_nil, or_false] at hb
    rcases hb with rfl | rfl | rfl | rfl | rfl | rfl <;> norm_num

/-- C14: the last-bracket lookup `Brackets[len(Brackets)-1]` is in range for
every engine with a non-empty bracket list (in particular the engine of
`NewTaxEngine`) and `CalculateProgressiveTax` returns for every taxable income
there; for an engine with an empty bracket list the lookup is out of range (the
call fails) exactly when the taxable income is positive, and the call returns 0
when it is not. -/
theorem CalculateProgressiveTax_total :
    (∀ e : TaxEngine, e.Brackets ≠ [] →
        (e.Brackets[e.Brackets.length - 1]?).isSome = true
          ∧ ∀ t : ℚ, (CalculateProgressiveTax e t).isSome = true)
      ∧ (∀ t : ℚ, (CalculateProgressiveTax NewTaxEngine t).isSome = true)
      ∧ (∀ t : ℚ, CalculateProgressiveTax { Brackets := [] } t = none ↔ 0 < t)
      ∧ ∀ t : ℚ, t ≤ 0 → CalculateProgressiveTax { Brackets := [] } t = some 0 := by
  refine ⟨?_, ?_, ?_, ?_⟩
  · intro e hne
    have hidx := lastIndex_isSome e.Brackets hne
    refine ⟨hidx, ?_⟩
    intro t
    obtain ⟨last, hlast⟩ := Option.isSome_iff_exists.mp hidx
    unfold CalculateProgressiveTax
    simp only [hlast]
    split_ifs <;> rfl
  · intro t
    rw [newEngine_tax]
    rfl
  · intro t
    by_cases ht : 0 < t
    · simp [CalculateProgressiveTax, bracketLoop, ht]
    · simp [CalculateProgressiveTax, bracketLoop, ht]
  · intro t ht
    have hn : ¬ 0 < t := not_lt.mpr ht
    simp [CalculateProgressiveTax, bracketLoop, hn]

theorem CalculateProgressiveTax_total_witness :
    NewTaxEngine.Brackets ≠ []
      ∧ (CalculateProgressiveTax NewTaxEngine 7000000).isSome = true :=
  ⟨by simp [NewTaxEngine],
    (CalculateProgressiveTax_total.1 NewTaxEngine (by simp [NewTaxEngine])).2 7000000⟩

/-! ## Further lemmas: the default registry and the relief -/

theorem deductionStrategies_lookup_cases (ty : String) (calculator : DeductionCalculator)
    (h : deductionStrategies.lookup ty = some calculator) :
    ∃ p : ℚ, 0 ≤ p ∧ calculator = fun d grossIncome => min d.Amount (p * grossIncome) := by
  unfold deductionStrategies at h
  simp only [List.lookup] at h
  by_cases h1 : ty = "Pension"
  · subst h1
    simp at h
    exact ⟨8 / 100, by norm_num, h.symm⟩
  · have e1 : (ty == "Pension") = false := by simpa using h1
    rw [e1] at h
    by_cases h2 : ty = "NHF"
    · subst h2
      simp at h
      exact ⟨25 / 1000, by norm_num, h.symm⟩
    · have e2 : (ty == "NHF") = false := by simpa using h2
      rw [e2] at h
      by_cases h3 : ty = "NHIS"
      · subst h3
        simp at h
        exact ⟨5 / 100, by norm_num, h.symm⟩
      · have e3 : (ty == "NHIS") = false := by simpa using h3
        rw [e3] at h
        simp at h

/-- What one deduction record adds to the statutory sum. -/
theorem sumStatutoryDeductions_append_one (registry : Registry) (ds : List Deduction)
    (d : Deduction) (G : ℚ) :
    sumStatutoryDeductions registry (ds ++ [d]) G
      = sumStatutoryDeductions registry ds G
        + ((registry.lookup d.Type_).map (fun calculator => calculator d G)).getD 0 := by
  unfold sumStatutoryDeductions
  rw [List.foldl_append, List.foldl_cons, List.foldl_nil]
  cases registry.lookup d.Type_ with
  | none => simp
  | some calculator => simp

theorem default_contribution_nonneg (d : Deduction) (G : ℚ) (hd : 0 ≤ d.Amount) (hG : 0 ≤ G) :
    0 ≤ ((deductionStrategies.lookup d.Type_).map (fun calculator => calculator d G)).getD 0 := by
  cases h : deductionStrategies.lookup d.Type_ with
  | none => simp
  | some calculator =>
    obtain ⟨p, hp, rfl⟩ := deductionStrategies_lookup_cases d.Type_ calculator h
    simp only [Option.map_some', Option.getD_some]
    exact le_min hd (mul_nonneg hp hG)

theorem default_statutory_nonneg (G : ℚ) (hG : 0 ≤ G) (ds : List Deduction)
    (hds : ∀ d ∈ ds, 0 ≤ d.Amount) :
    0 ≤ sumStatutoryDeductions deductionStrategies ds G := by
  induction ds using List.reverseRecOn with
  | nil => simp [sumStatutoryDeductions]
  | append_singleton ds d ih =>
    rw [sumStatutoryDeductions_append_one]
    have h1 := ih (fun x hx => hds x (List.mem_append_left _ hx))
    have h2 := default_contribution_nonneg d G (hds d (by simp)) hG
    linarith

theorem sumIncomes_nonneg (incomes : List IncomeSource) (h : ∀ i ∈ incomes, 0 ≤ i.Amount) :
    0 ≤ sumIncomes incomes := by
  rw [sumIncomes_eq_sum]
  apply List.sum_nonneg
  intro y hy
  obtain ⟨i, hi, rfl⟩ := List.mem_map.mp hy
  exact h i hi

theorem relief_exceeds_iff (e : TaxEngine) (G : ℚ) :
    G - CalculateCRA e G ≤ 0 ↔ G ≤ 250000 := by
  unfold CalculateCRA
  rcases le_total (200000 : ℚ) (1 / 100 * G) with h | h
  · rw [max_eq_right h]
    constructor
    · intro h1
      linarith
    · intro h1
      linarith
  · rw [max_eq_left h]
    constructor
    · intro h1
      linarith
    · intro h1
      linarith

theorem hingeReference_lower (t : ℚ) : 7 / 100 * t ≤ hingeReference t := by
  unfold hingeReference
  have h0 := le_max_left t 0
  have h1 := le_max_right (t - 300000) 0
  have h2 := le_max_right (t - 600000) 0
  have h3 := le_max_right (t - 1100000) 0
  have h4 := le_max_right (t - 1600000) 0
  have h5 := le_max_right (t - 3200000) 0
  linarith

theorem hingeReference_eq_zero_iff (t : ℚ) : hingeReference t = 0 ↔ t ≤ 0 := by
  constructor
  · intro h
    have := hingeReference_lower t
    linarith
  · exact hingeReference_of_nonpos t

/-- C17: the tax-free threshold implied by the relief formula: for every request
with no deductions and non-negative total gross income `G`, the annual tax
returned by `CalculateTax` is 0 if and only if `G ≤ 250000`; and for every
request with non-negative incomes and non-negative deduction amounts (default
registry), `G ≤ 250000` implies taxable income 0 and annual tax 0. -/
theorem CalculateTax_tax_free_threshold :
    (∀ (registry : Registry) (incomes : List IncomeSource),
        0 ≤ (incomes.map (fun i => i.Amount)).sum →
        ∃ resp : TaxCalculationResponse,
          CalculateTax NewTaxService registry { Incomes := incomes, Deductions := [] }
              = some resp
            ∧ (resp.Breakdown.AnnualTax = 0
                ↔ (incomes.map (fun i => i.Amount)).sum ≤ 250000))
      ∧ ∀ (incomes : List IncomeSource) (ds : List Deduction),
          (∀ i ∈ incomes, 0 ≤ i.Amount) → (∀ d ∈ ds, 0 ≤ d.Amount) →
          (incomes.map (fun i => i.Amount)).sum ≤ 250000 →
          ∃ resp : TaxCalculationResponse,
            CalculateTax NewTaxService deductionStrategies
                { Incomes := incomes, Deductions := ds } = some resp
              ∧ resp.Breakdown.TaxableIncome = 0
              ∧ resp.Breakdown.AnnualTax = 0 := by
  constructor
  · intro registry incomes _
    refine ⟨_, CalculateTax_newService _ _, ?_⟩
    have h0 : sumStatutoryDeductions registry [] (sumIncomes incomes) = 0 := rfl
    simp only [h0, zero_add]
    rw [piecewiseReference_eq_hinge, hingeReference_eq_zero_iff, ← sumIncomes_eq_sum,
      ← relief_exceeds_iff NewTaxEngine (sumIncomes incomes)]
    constructor
    · intro h
      exact le_trans (le_max_right _ _) h
    · intro h
      exact max_le le_rfl h
  · intro incomes ds hinc hds hG
    rw [← sumIncomes_eq_sum] at hG
    have hG0 := sumIncomes_nonneg incomes hinc
    have hstat := default_statutory_nonneg (sumIncomes incomes) hG0 ds hds
    have hrel := (relief_exceeds_iff NewTaxEngine (sumIncomes incomes)).mpr hG
    have htaxable :
        max 0 (sumIncomes incomes
          - (sumStatutoryDeductions deductionStrategies ds (sumIncomes incomes)
              + CalculateCRA NewTaxEngine (sumIncomes incomes))) = 0 :=
      max_eq_left (by linarith)
    refine ⟨_, CalculateTax_newService _ _, htaxable, ?_⟩
    simp only [htaxable]
    rw [piecewiseReference_eq_hinge]
    exact hingeReference_of_nonpos 0 le_rfl

theorem CalculateTax_tax_free_threshold_witness :
    (0 : ℚ) ≤ ([{ Type_ := "Employment", Amount := 250000 }].map
        (fun i : IncomeSource => i.Amount)).sum
      ∧ ∃ resp : TaxCalculationResponse,
          CalculateTax NewTaxService deductionStrategies
              { Incomes := [{ Type_ := "Employment", Amount := 250000 }], Deductions := [] }
              = some resp
            ∧ (resp.Breakdown.AnnualTax = 0
                ↔ ([{ Type_ := "Employment", Amount := 250000 }].map
                    (fun i : IncomeSource => i.Amount)).sum ≤ 250000) :=
  ⟨by norm_num,
    CalculateTax_tax_free_threshold.1 deductionStrategies
      [{ Type_ := "Employment", Amount := 250000 }] (by norm_num)⟩

end TaxCalc
